import Mathlib

/-!
Verification development for the casting-order notification service
(`src/main.py`).  The Python source is shallowly embedded: pure helpers
become Lean functions, the Slack / Google-Sheets / HTTP side effects are
made explicit by passing the external outcomes (upload result, post
result, transport result, ...) as arguments, and the externally visible
effects (messages sent, rows appended, webhook posts) are returned as
explicit lists.  Python truthiness of optional strings is modelled by
`py_truthy` (both `None` and `""` are falsy).
-/

/-- Python truthiness of an optional string: `None` and `""` are falsy. -/
def py_truthy : Option String → Bool
  | none => false
  | some s => !s.isEmpty

/-- Python `a or b` on optional strings. -/
def py_or (a b : Option String) : Option String :=
  if py_truthy a then a else b

/-- Python `s or d` on plain strings. -/
def py_or_str (s d : String) : String :=
  if s.isEmpty then d else s

/-- Python `o or ""` on an optional string. -/
def py_opt_str (o : Option String) : String :=
  if py_truthy o then o.getD "" else ""

/-- Python `str.rstrip()`: drop trailing whitespace. -/
def rstrip (s : String) : String :=
  String.mk ((s.data.reverse.dropWhile Char.isWhitespace).reverse)

/-- `concat_map f l` flattens `f` mapped over `l` (Python nested appends). -/
def concat_map (f : α → List β) : List α → List β
  | [] => []
  | a :: l => f a ++ concat_map f l

/-- Python `str.strip()`: drop leading and trailing whitespace. -/
def py_strip (s : String) : String :=
  String.mk (((s.data.dropWhile Char.isWhitespace).reverse.dropWhile Char.isWhitespace).reverse)

/-- Python `str.lower()`. -/
def py_lower (s : String) : String :=
  String.mk (s.data.map Char.toLower)

/-- Python `str.replace(pat, rep)` for a single-character pattern (the
only shape `main.py` uses). -/
def py_replace1 (pat : Char) (rep : String) (s : String) : String :=
  String.mk (concat_map (fun c => if c = pat then rep.data else [c]) s.data)

/-- Lookup in an association list built by Python `dict` assignment:
the value of the latest binding for the key wins. -/
def dict_get [DecidableEq κ] : List (κ × ν) → κ → Option ν
  | [], _ => none
  | (a, v) :: rest, k =>
      match dict_get rest k with
      | some w => some w
      | none => if a = k then some v else none

/-- The environment-variable configuration used by `main.py`.  Each Slack
channel and the GAS url is an optional string (unset env var = `none`). -/
structure Config where
  slackDefaultChannel : Option String := none
  slackChannelTest : Option String := none
  slackChannelTypeA : Option String := none
  slackChannelTypeB : Option String := none
  slackMentionGroupId : Option String := none
  gasUrlNotionSync : Option String := none
deriving DecidableEq

/-- `pick_channel` from `main.py` (lines 156-159). -/
def pick_channel (cfg : Config) (order_type : String) : Option String :=
  if order_type = "pattern_a" then py_or cfg.slackChannelTypeA cfg.slackDefaultChannel
  else if order_type = "pattern_b" then py_or cfg.slackChannelTypeB cfg.slackDefaultChannel
  else py_or cfg.slackChannelTest (py_or cfg.slackDefaultChannel (some ""))

/-- The fallback chain exactly as claim C5 words it: type-specific
channel, else test channel, else default channel, else empty string. -/
def spec_pick_channel_claim (cfg : Config) (order_type : String) : Option String :=
  let typeSpecific :=
    if order_type = "pattern_a" then cfg.slackChannelTypeA
    else if order_type = "pattern_b" then cfg.slackChannelTypeB
    else none
  py_or typeSpecific (py_or cfg.slackChannelTest (py_or cfg.slackDefaultChannel (some "")))

/-- The amended fallback chain: typed orders fall back to the default
channel only; all other order types resolve test, then default, then
the empty string. -/
def spec_pick_channel_amended (cfg : Config) (order_type : String) : Option String :=
  if order_type = "pattern_a" then py_or cfg.slackChannelTypeA cfg.slackDefaultChannel
  else if order_type = "pattern_b" then py_or cfg.slackChannelTypeB cfg.slackDefaultChannel
  else py_or cfg.slackChannelTest (py_or cfg.slackDefaultChannel (some ""))

/-- Pydantic `OrderItem` (`main.py` lines 65-73). -/
structure OrderItem where
  castingId : String
  roleName : String := ""
  castName : String
  rank : Int
  note : String := ""
  projectName : String
  slack_user_id : Option String := none
  conflictInfo : Option String := none
deriving DecidableEq

/-- Pydantic `OrderCreatedPayload` (`main.py` lines 75-84). -/
structure OrderCreatedPayload where
  accountName : String
  projectName : String
  projectId : String
  dateRanges : List String
  orders : List OrderItem
  orderType : String := "test"
  ccString : Option String := none
  slackThreadTs : Option String := none
  isAdditionalOrder : Bool := false
deriving DecidableEq

/-- Role buckets of one project: role name mapped to the candidates that
were appended to it, in insertion order (a Python `dict` of lists). -/
abbrev RoleGroups := List (String × List OrderItem)

/-- Project buckets: project name mapped to its role buckets, in
insertion order. -/
abbrev ProjectGroups := List (String × RoleGroups)

/-- `projects[order.projectName][order.roleName].append(order)` on the
role dict of one project, creating the role bucket if absent. -/
def add_to_role : RoleGroups → OrderItem → RoleGroups
  | [], o => [(o.roleName, [o])]
  | (r, cs) :: rest, o =>
      if r = o.roleName then (r, cs ++ [o]) :: rest
      else (r, cs) :: add_to_role rest o

/-- One step of the grouping loop of `build_order_text`: insert one order
into the project dict, creating the project bucket if absent. -/
def add_to_project : ProjectGroups → OrderItem → ProjectGroups
  | [], o => [(o.projectName, [(o.roleName, [o])])]
  | (p, rs) :: rest, o =>
      if p = o.projectName then (p, add_to_role rs o) :: rest
      else (p, rs) :: add_to_project rest o

/-- The grouping loop of `build_order_text` (`main.py` lines 180-189 and
227-235): group candidates by project, then by role, both in first-seen
order, candidates of a role kept in input order. -/
def group_orders (os : List OrderItem) : ProjectGroups :=
  os.foldl add_to_project []

/-- Insert a candidate into a rank-sorted list after all candidates of
smaller-or-equal rank (the insertion step of a stable ascending sort). -/
def ordered_insert_rank (o : OrderItem) : List OrderItem → List OrderItem
  | [] => [o]
  | x :: xs => if o.rank < x.rank then o :: x :: xs else x :: ordered_insert_rank o xs

/-- `cands.sort(key=lambda x: x.rank)` (`main.py` line 246): Python's
stable ascending sort on the rank key. -/
def sort_by_rank (l : List OrderItem) : List OrderItem :=
  l.foldl (fun acc o => ordered_insert_rank o acc) []

/-- The leading broadcast-mention line, emitted when the mention group id
is configured (`main.py` lines 163-164 and 174-175). -/
def mention_lines (cfg : Config) : List String :=
  if py_truthy cfg.slackMentionGroupId then
    ["<!subteam^" ++ cfg.slackMentionGroupId.getD "" ++ ">"]
  else []

/-- Candidate display: Slack mention when a user id is present, else the
plain cast name (`main.py` line 248). -/
def cast_disp (c : OrderItem) : String :=
  if py_truthy c.slack_user_id then "<@" ++ c.slack_user_id.getD "" ++ ">"
  else c.castName

/-- Warning line attached to a candidate carrying conflict info. -/
def conflict_lines (indent : String) (c : OrderItem) : List String :=
  if py_truthy c.conflictInfo then [indent ++ "🚨 " ++ c.conflictInfo.getD ""] else []

/-- One role line of the additional-order variant (`main.py` lines
193-202): candidates joined by " / ", in bucket order, no rank sort. -/
def addl_role_lines (rg : String × List OrderItem) : List String :=
  (rg.1 ++ "：" ++ String.intercalate " / " (rg.2.map (·.castName)))
    :: concat_map (conflict_lines "  ") rg.2

/-- One project block of the additional-order variant. -/
def addl_project_lines (pg : String × RoleGroups) : List String :=
  ("【" ++ pg.1 ++ "】") :: (concat_map addl_role_lines pg.2 ++ [""])

/-- One candidate of the standard variant (`main.py` lines 247-254). -/
def std_cand_lines (c : OrderItem) : List String :=
  ("    第" ++ toString c.rank ++ "候補：" ++ cast_disp c) :: conflict_lines "    " c

/-- One role block of the standard variant: candidates sorted by rank. -/
def std_role_lines (rg : String × List OrderItem) : List String :=
  ("  " ++ rg.1) :: concat_map std_cand_lines (sort_by_rank rg.2)

/-- One project block of the standard variant. -/
def std_project_lines (pg : String × RoleGroups) : List String :=
  ("【" ++ pg.1 ++ "】") :: concat_map std_role_lines pg.2

/-- The list of message lines built by `build_order_text` (`main.py`
lines 161-264) before they are joined with a newline.  The additional
branch discards the initial lines and rebuilds from scratch, re-adding
only the broadcast mention; the standard branch renders the six labelled
blocks. -/
def build_order_lines (cfg : Config) (p : OrderCreatedPayload)
    (upload_error : Option String) : List String :=
  if p.isAdditionalOrder then
    mention_lines cfg ++ ["追加オーダーのお知らせ", ""]
      ++ concat_map addl_project_lines (group_orders p.orders)
      ++ (if py_truthy upload_error then
            ["\n⚠️ PDF送信エラー: " ++ upload_error.getD ""] else [])
  else
    mention_lines cfg
      ++ (if py_truthy p.ccString then ["cc: " ++ p.ccString.getD ""] else [])
      ++ ["キャスティングオーダーがありました。"]
      ++ (if py_truthy upload_error then
            ["", "⚠️ **PDF送信に失敗したので、Slackにて手動での添付をお願いします**",
             "Reason: " ++ upload_error.getD ""]
          else [])
      ++ ["", "`撮影日`"] ++ p.dateRanges.map (fun d => "・" ++ d) ++ [""]
      ++ ["`アカウント`", py_or_str p.accountName "未入力", ""]
      ++ ["`作品名`",
          (if (group_orders p.orders).map Prod.fst ≠ [] then
             String.intercalate "/" ((group_orders p.orders).map Prod.fst)
           else "未定"), ""]
      ++ ["`役名`"] ++ concat_map std_project_lines (group_orders p.orders)
      ++ ["", "`Notionリンク`"]
      ++ [if ¬ p.projectId.isEmpty then
            "https://www.notion.so/" ++ py_replace1 '-' "" p.projectId
          else "未設定"]
      ++ ["\n--------------------------------------------------"]

/-- `build_order_text`: join the lines and strip trailing whitespace. -/
def build_order_text (cfg : Config) (p : OrderCreatedPayload)
    (upload_error : Option String) : String :=
  rstrip (String.intercalate "\n" (build_order_lines cfg p upload_error))

/-- Pydantic `StatusUpdatePayload` (`main.py` lines 86-99). -/
structure StatusUpdatePayload where
  castingId : String
  newStatus : String
  castName : String
  slackThreadTs : Option String := none
  slackPermalink : Option String := none
  extraMessage : Option String := none
  isInternal : Option Bool := some false
  projectId : Option String := none
  mainSub : Option String := some "その他"
  orderDetails : Option (List String) := none
deriving DecidableEq

/-- `build_status_update_text` (`main.py` lines 266-282). -/
def build_status_update_text (p : StatusUpdatePayload) : String :=
  if p.newStatus = "追加オーダー" then
    rstrip ("追加オーダーが登録されました。\n" ++ py_opt_str p.extraMessage)
  else
    let base := p.castName ++ "さん、出演" ++ p.newStatus ++ "でした。"
    if py_truthy p.extraMessage then base ++ "\n" ++ p.extraMessage.getD "" else base

/-- An externally visible chat message produced by the order-creation
endpoint: either one upload-with-caption or one plain text post. -/
inductive Sent where
  | upload (channel : Option String) (caption : String)
  | text (channel : Option String) (body : String)
deriving DecidableEq

/-- The JSON body returned by `notify_order_created` on success. -/
structure OrderResponse where
  ok : Bool
  ts : Option String
  permalink : String
  upload_error : Option String
deriving DecidableEq

/-- Outcomes of the three Slack calls `notify_order_created` can make:
the file upload (success carries the extracted share timestamp, if any),
the plain-text post (success carries `res.get("ts")`), and the permalink
fetch. -/
structure SlackOutcomes where
  uploadRes : Except String (Option String)
  textRes : Except String (Option String)
  permalinkRes : Except String String

/-- `notify_order_created` (`main.py` lines 401-488), with the HTTP
payload decoding and Slack transport abstracted into arguments.  Returns
the endpoint result (success body or HTTP-500 detail) together with the
list of chat messages actually delivered. -/
def notify_order_created (cfg : Config) (payload : OrderCreatedPayload)
    (files : List String) (out : SlackOutcomes) :
    Except String OrderResponse × List Sent :=
  let channel := pick_channel cfg payload.orderType
  let step1 : Bool × Option String × Option String × List Sent :=
    if files ≠ [] then
      match out.uploadRes with
      | .ok tsOpt =>
          (true, tsOpt, none,
           [Sent.upload channel (build_order_text cfg payload none)])
      | .error e => (false, none, some e, [])
    else (false, none, none, [])
  match step1 with
  | (sent_via_upload, ts0, upload_error, sent0) =>
    if sent_via_upload then
      let permalink :=
        if py_truthy ts0 then
          match out.permalinkRes with
          | .ok pl => pl
          | .error _ => ""
        else ""
      (.ok ⟨true, ts0, permalink, upload_error⟩, sent0)
    else
      let fallback := build_order_text cfg payload upload_error
      match out.textRes with
      | .ok tsOpt =>
          let permalink :=
            if py_truthy tsOpt then
              match out.permalinkRes with
              | .ok pl => pl
              | .error _ => ""
            else ""
          (.ok ⟨true, tsOpt, permalink, upload_error⟩,
           sent0 ++ [Sent.text channel fallback])
      | .error _ => (.error "Slack送信失敗", sent0)

/-- The reduced payload POSTed to the GAS automation endpoint
(`main.py` lines 292-299). -/
structure GasPost where
  pageId : Option String
  castName : String
  isInternal : Option Bool
  orderDetails : Option (List String)
deriving DecidableEq

/-- Build the reduced relay payload from a status event. -/
def gas_payload (p : StatusUpdatePayload) : GasPost :=
  ⟨p.projectId, p.castName, p.isInternal, p.orderDetails⟩

/-- `sync_to_notion_via_gas` (`main.py` lines 285-310): returns the list
of POST attempts made (at most one) and the log line printed.  Any
transport outcome — success, non-200, exception — ends in a log line;
no error escapes to the caller. -/
def sync_to_notion_via_gas (cfg : Config) (p : StatusUpdatePayload)
    (transport : Except String (Nat × String)) : List GasPost × String :=
  if ¬ py_truthy cfg.gasUrlNotionSync then
    ([], "GAS_URL_NOTION_SYNC is not set.")
  else
    match transport with
    | .ok (status, body) =>
        if status = 200 then ([gas_payload p], "Notion sync success: " ++ p.castName)
        else ([gas_payload p], "Notion sync failed: " ++ body)
    | .error e => ([gas_payload p], "Notion sync exception: " ++ e)

/-- The caller-visible result of `notify_status_update`. -/
inductive StatusResult where
  | dbAppendOnly
  | posted (channel : String) (text : String)
  | error (detail : String)
deriving DecidableEq

/-- `notify_status_update` (`main.py` lines 699-748) with the Slack post
outcome abstracted as an argument.  Returns the endpoint result and the
list of payloads handed to the background relay task (scheduled before
the thread-ts early return, whenever newStatus is OK/決定 and both
projectId and castName are truthy). -/
def notify_status_update (cfg : Config) (p : StatusUpdatePayload)
    (postOutcome : Except String Unit) :
    StatusResult × List StatusUpdatePayload :=
  let scheduled :=
    if (p.newStatus = "OK" ∨ p.newStatus = "決定")
        ∧ py_truthy p.projectId ∧ ¬ p.castName.isEmpty then [p] else []
  if ¬ py_truthy p.slackThreadTs then (.dbAppendOnly, scheduled)
  else
    let channel := py_or cfg.slackChannelTest cfg.slackDefaultChannel
    if ¬ py_truthy channel then (.error "Slack通知先チャンネルが未設定です。", scheduled)
    else
      let text :=
        if p.newStatus = "追加オーダー" then
          "追加オーダーが登録されました。\n" ++ py_opt_str p.extraMessage
        else build_status_update_text p
      match postOutcome with
      | .ok _ => (.posted (channel.getD "") text, scheduled)
      | .error e => (.error ("Slack通知の送信に失敗しました: " ++ e), scheduled)

/-- The endpoint followed by its detached background task: the response
is fixed before the relay runs; the second component is the list of
webhook POSTs the background task performs. -/
def status_update_pipeline (cfg : Config) (p : StatusUpdatePayload)
    (postOutcome : Except String Unit)
    (transport : Except String (Nat × String)) : StatusResult × List GasPost :=
  let r := notify_status_update cfg p postOutcome
  (r.1, concat_map (fun q => (sync_to_notion_via_gas cfg q transport).1) r.2)

/-- One resolved entry of the general cast roster (`main.py` lines
546-552): a Python dict with keys name / email / slack_id / type. -/
structure CastInfo where
  name : String
  email : String
  slack_id : String
  ctype : String
deriving DecidableEq

/-- Parse one row of the general roster sheet (`main.py` lines 536-555):
rows shorter than 2 cells are skipped, missing trailing columns default
to the empty string, a missing type column (index 9) defaults to
"外部", and rows with an empty id are not inserted. -/
def parse_cast_row (row : List String) : Option (String × CastInfo) :=
  if row.length < 2 then none
  else
    let cid := py_strip (row.getD 0 "")
    let nm := py_strip (row.getD 1 "")
    let email := if row.length > 7 then py_strip (row.getD 7 "") else ""
    let slack_id := if row.length > 10 then py_strip (row.getD 10 "") else ""
    let type_val := if row.length > 9 then py_strip (row.getD 9 "") else "外部"
    if cid = "" then none else some (cid, ⟨nm, email, slack_id, type_val⟩)

/-- Parse one row of the internal cast DB (`main.py` lines 512-522):
rows shorter than 5 cells are skipped; yields an email → slack-id
binding (email lower-cased) when the email cell is non-empty. -/
def parse_internal_row (row : List String) : Option (String × String) :=
  if row.length < 5 then none
  else
    let email := py_strip (row.getD 3 "")
    let slack_id := py_strip (row.getD 4 "")
    if email = "" then none else some (py_lower email, slack_id)

/-- Load both roster sources (`main.py` lines 503-558): the cast map is
built from the general roster only; the email → slack map is the union
of both sources with the general roster inserted later (overwriting on
collision).  Header rows are skipped. -/
def load_special_maps (internal_rows general_rows : List (List String)) :
    List (String × CastInfo) × List (String × String) :=
  let email_map_1 := (internal_rows.drop 1).filterMap parse_internal_row
  let cast_entries := (general_rows.drop 1).filterMap parse_cast_row
  let email_map_2 := cast_entries.filterMap
    (fun e => if e.2.email = "" then none else some (py_lower e.2.email, e.2.slack_id))
  (cast_entries, email_map_1 ++ email_map_2)

/-- `cast_map.get(cid, {})` followed by `cast.get("type") or "外部"`
(`main.py` lines 570-574): an unknown id or an empty type cell resolves
to "外部". -/
def resolve_cast_type (cast_map : List (String × CastInfo)) (cid : String) : String :=
  match dict_get cast_map cid with
  | some c => py_or_str c.ctype "外部"
  | none => "外部"

/-- One spreadsheet cell of an appended ledger row (`main.py` keeps
strings, the integer rank, and a possibly-None thread timestamp in the
same list). -/
inductive Cell where
  | str : String → Cell
  | int : Int → Cell
  | opt : Option String → Cell
deriving DecidableEq

/-- The 23-cell (columns A-W) ledger row appended for one (cast, date)
occurrence (`main.py` lines 623-647). -/
def mk_special_row (casting_id account_name title cid_str cast_name date status
    time_range : String) (ts : Option String)
    (permalink timestamp orderer_email cast_type cast_email : String) : List Cell :=
  [Cell.str casting_id, Cell.str account_name, Cell.str title, Cell.str "出演",
   Cell.str cid_str, Cell.str cast_name, Cell.str date, Cell.str date,
   Cell.int 1, Cell.str status, Cell.str time_range, Cell.opt ts,
   Cell.str permalink, Cell.str "その他", Cell.str "", Cell.str "",
   Cell.str timestamp, Cell.str orderer_email, Cell.str "", Cell.str cast_type,
   Cell.str cast_email, Cell.str "", Cell.str "[]"]

/-- A calendar-event descriptor queued for internal casts
(`main.py` lines 651-664). -/
structure CalEvent where
  castingId : String
  accountName : String
  projectName : String
  roleName : String
  mainSub : String
  startDate : String
  endDate : String
  email : String
  status : String
  time_range : String
  rowNumber : Option Nat
deriving DecidableEq

/-- Pydantic `SpecialOrderPayload` (`main.py` lines 114-121). -/
structure SpecialOrderPayload where
  orderType : String
  title : String
  dates : List String
  startTime : String
  endTime : String
  castIds : List String
  ordererEmail : String
deriving DecidableEq

/-- `"外部案件"` for external special orders, `"社内イベント"` otherwise
(`main.py` line 565). -/
def account_name_of (p : SpecialOrderPayload) : String :=
  if p.orderType = "external" then "外部案件" else "社内イベント"

/-- The per-date inner loop of `notify_special_order` (`main.py` lines
617-664): one ledger row per date, plus one calendar-event descriptor
per date when the cast is internal.  `k` is the position in the uuid
supply. -/
def special_dates_loop (uuids : Nat → String)
    (account_name title cid_str cast_name status time_range : String)
    (ts : Option String)
    (permalink timestamp orderer_email cast_type cast_email : String)
    (is_internal : Bool) : List String → Nat → List (List Cell) × List CalEvent
  | [], _ => ([], [])
  | d :: ds, k =>
      let casting_id := "sp_" ++ uuids k
      let row := mk_special_row casting_id account_name title cid_str cast_name d
        status time_range ts permalink timestamp orderer_email cast_type cast_email
      let rest := special_dates_loop uuids account_name title cid_str cast_name
        status time_range ts permalink timestamp orderer_email cast_type cast_email
        is_internal ds (k + 1)
      (row :: rest.1,
       (if is_internal then
          [⟨casting_id, account_name, title, "出演", "その他", d, d, cast_email,
            status, time_range, none⟩]
        else []) ++ rest.2)

/-- `cast.get("name")` with `{}` default — `None` becomes `""`. -/
def cast_get_name : Option CastInfo → String
  | some c => c.name
  | none => ""

/-- `cast.get("email")` with `{}` default. -/
def cast_get_email : Option CastInfo → String
  | some c => c.email
  | none => ""

/-- `cast.get("type")` with `{}` default. -/
def cast_get_ctype : Option CastInfo → String
  | some c => c.ctype
  | none => ""

/-- `cast.get("slack_id")` with `{}` default. -/
def cast_get_slack_id : Option CastInfo → String
  | some c => c.slack_id
  | none => ""

/-- Everything `notify_special_order` needs that is fixed for one
request: configuration, the two loaded roster maps, the payload, the
uuid supply, the per-cast Slack outcome (timestamp, permalink) and the
request timestamp. -/
structure SpecialCtx where
  cfg : Config
  cast_map : List (String × CastInfo)
  email_map : List (String × String)
  payload : SpecialOrderPayload
  uuids : Nat → String
  slack : Nat → Option String × String
  timestamp : String

/-- The per-cast outer loop of `notify_special_order` (`main.py` lines
567-664): resolve the cast, post one Slack message to the default
channel, and append one ledger row per date.  `ci` counts casts (for the
Slack outcome), `k` counts rows (for the uuid supply). -/
def special_cast_loop (ctx : SpecialCtx) :
    List String → Nat → Nat →
    List (Option String × String) × List (List Cell) × List CalEvent
  | [], _, _ => ([], [], [])
  | cid :: rest, ci, k =>
      let cid_str := py_strip cid
      let cast := dict_get ctx.cast_map cid_str
      let cast_name := py_or_str (cast_get_name cast) "不明"
      let cast_email := cast_get_email cast
      let cast_type := py_or_str (cast_get_ctype cast) "外部"
      let is_internal := cast_type = "内部"
      let status := if is_internal then "仮キャスティング" else "決定"
      let slack_id := cast_get_slack_id cast
      let mention := if ¬ slack_id.isEmpty then "<@" ++ slack_id ++ ">" else cast_name
      let cc_slack := dict_get ctx.email_map (py_lower (py_strip ctx.payload.ordererEmail))
      let cc_mention :=
        if py_truthy cc_slack then "<@" ++ cc_slack.getD "" ++ ">"
        else ctx.payload.ordererEmail
      let dates_str := py_replace1 '-' "/" (String.intercalate ", " ctx.payload.dates)
      let time_range := ctx.payload.startTime ++ " ~ " ++ ctx.payload.endTime
      let msg := mention ++ " \nCC: " ++ cc_mention ++ "\n\n【"
        ++ account_name_of ctx.payload ++ "】\n`タイトル`\n" ++ ctx.payload.title
        ++ "\n`日時`\n" ++ dates_str ++ "\n`時間`\n" ++ time_range
      let tsperm := ctx.slack ci
      let this := special_dates_loop ctx.uuids (account_name_of ctx.payload)
        ctx.payload.title cid_str cast_name status time_range tsperm.1 tsperm.2
        ctx.timestamp ctx.payload.ordererEmail cast_type cast_email is_internal
        ctx.payload.dates k
      let restr := special_cast_loop ctx rest (ci + 1) (k + ctx.payload.dates.length)
      ((ctx.cfg.slackDefaultChannel, msg) :: restr.1,
       this.1 ++ restr.2.1, this.2 ++ restr.2.2)

/-- The message / row / event production of `notify_special_order` for
one request. -/
def notify_special_order_core (ctx : SpecialCtx) :
    List (Option String × String) × List (List Cell) × List CalEvent :=
  special_cast_loop ctx ctx.payload.castIds 0 0

/-- Digit run to a number, as `int()` on the matched regex group. -/
def digits_val (l : List Char) : Nat :=
  l.foldl (fun a c => a * 10 + (c.toNat - 48)) 0

/-- Try the regex `!A(\d+):` anchored at the head of the character
list: literal "!A", then at least one digit, then ":". -/
def match_at : List Char → Option Nat
  | '!' :: 'A' :: rest =>
      let ds := rest.takeWhile (fun c => c.isDigit)
      if ds.isEmpty then none
      else if (rest.dropWhile (fun c => c.isDigit)).head? = some ':' then
        some (digits_val ds)
      else none
  | _ => none

/-- Leftmost search for `!A(\d+):`, returning 0 when there is no match —
`re.search` followed by `int(match.group(1)) if match else 0`
(`main.py` lines 675-677). -/
def search_row : List Char → Nat
  | [] => 0
  | c :: cs =>
      match match_at (c :: cs) with
      | some n => n
      | none => search_row cs

/-- Parse the first appended row number out of the batch append's
`updatedRange` address string. -/
def parse_start_row (s : String) : Nat :=
  search_row s.data

/-- The dict key of an appended row: its first cell (the casting id). -/
def row_key (r : List Cell) : Cell :=
  r.headD (Cell.str "")

/-- `id_to_row` (`main.py` lines 681-683): enumerate the appended rows,
mapping each row's casting id to `start_row + i`. -/
def id_to_row (start : Nat) : List (List Cell) → List (Cell × Nat)
  | [] => []
  | r :: rs => (row_key r, start) :: id_to_row (start + 1) rs

/-- The `calendar_events` field of the `notify_special_order` response
(`main.py` lines 666-690): empty when nothing was appended, when there
are no internal events, or when the range address cannot be parsed;
otherwise the events with their resolved row numbers attached. -/
def calendar_events_response (addr : String) (new_rows : List (List Cell))
    (events : List CalEvent) : List CalEvent :=
  if new_rows = [] then []
  else if events = [] then []
  else if 0 < parse_start_row addr then
    let m := id_to_row (parse_start_row addr) new_rows
    events.map (fun ev =>
      match dict_get m (Cell.str ev.castingId) with
      | some n => { ev with rowNumber := some n }
      | none => ev)
  else []

/-- Pydantic `ShootingContactUpdateItem` (`main.py` lines 101-112). -/
structure ShootingContactUpdateItem where
  castingId : String
  status : Option String := none
  inTime : Option String := none
  outTime : Option String := none
  location : Option String := none
  address : Option String := none
  cost : Option String := none
  makingUrl : Option String := none
  postDate : Option String := none
  mainSub : Option String := none
  poUuid : Option String := none
deriving DecidableEq

/-- Emit the single-cell update for one optional field: nothing when the
field is unset. -/
def opt_update (v : Option String) (col : String) (row : Nat) :
    List (String × Nat × String) :=
  match v with
  | some x => [(col, row, x)]
  | none => []

/-- The batched update list of `update_shooting_contact_status`
(`main.py` lines 865-897): each non-null field at its fixed column
letter, and the S-column timestamp appended unconditionally at the
end. -/
def build_updates (p : ShootingContactUpdateItem) (row_idx : Nat)
    (now_str : String) : List (String × Nat × String) :=
  opt_update p.status "J" row_idx ++ opt_update p.inTime "K" row_idx
    ++ opt_update p.outTime "L" row_idx ++ opt_update p.location "M" row_idx
    ++ opt_update p.address "N" row_idx ++ opt_update p.makingUrl "O" row_idx
    ++ opt_update p.cost "P" row_idx ++ opt_update p.postDate "Q" row_idx
    ++ opt_update p.mainSub "T" row_idx ++ opt_update p.poUuid "U" row_idx
    ++ [("S", row_idx, now_str)]

/-- Apply a batched update to a sheet (cells addressed by column letter
and 1-based row number), in order. -/
def apply_updates (sheet : String × Nat → String) :
    List (String × Nat × String) → (String × Nat → String)
  | [] => sheet
  | (c, r, v) :: rest =>
      apply_updates (fun q => if q = (c, r) then v else sheet q) rest

/-- `update_shooting_contact_status` (`main.py` lines 847-908): locate
the row by scanning column A for the casting id (1-based), 404 when
absent, then apply the batched update. -/
def update_shooting_contact_status (p : ShootingContactUpdateItem)
    (col_a : List String) (sheet : String × Nat → String) (now_str : String) :
    Except String (String × Nat → String) :=
  match col_a.findIdx? (fun s => s == p.castingId) with
  | none => .error "Casting ID not found"
  | some i => .ok (apply_updates sheet (build_updates p (i + 1) now_str))

lemma special_cast_loop_channel (ctx : SpecialCtx) (cids : List String) :
    ∀ ci k m, m ∈ (special_cast_loop ctx cids ci k).1 →
      m.1 = ctx.cfg.slackDefaultChannel := by
  induction cids with
  | nil => intro ci k m hm; simp [special_cast_loop] at hm
  | cons c cs ih =>
      intro ci k m hm
      simp only [special_cast_loop] at hm
      rcases List.mem_cons.mp hm with h | h
      · subst h; rfl
      · exact ih _ _ _ h

/-- The concrete configuration refuting claim C5: the type-A channel is
unset, the test channel is configured, the default channel is unset. -/
def cfg_c5 : Config := { slackChannelTest := some "C_TEST" }

/-- C5 counterexample: for order type "pattern_a" with no type-A channel
configured, the code returns the (unset) default channel — not the test
channel the claimed fallback chain would give. -/
theorem c5_counterexample :
    pick_channel cfg_c5 "pattern_a" ≠ spec_pick_channel_claim cfg_c5 "pattern_a"
    ∧ pick_channel cfg_c5 "pattern_a" = none
    ∧ spec_pick_channel_claim cfg_c5 "pattern_a" = some "C_TEST" := by
  decide

/-- C5 amended: `pick_channel` resolves "pattern_a"/"pattern_b" through
type-specific channel → default channel only (the test channel is never
consulted for typed orders, and the result may be unset); all other
order types resolve test channel → default channel → empty string; and
every special-order Slack message targets the default channel with no
type-based branching. -/
theorem c5_pick_channel_amended (cfg : Config) (t : String) :
    pick_channel cfg t = spec_pick_channel_amended cfg t
    ∧ (∀ tc₁ tc₂ : Option String,
        pick_channel { cfg with slackChannelTest := tc₁ } "pattern_a"
          = pick_channel { cfg with slackChannelTest := tc₂ } "pattern_a"
        ∧ pick_channel { cfg with slackChannelTest := tc₁ } "pattern_b"
          = pick_channel { cfg with slackChannelTest := tc₂ } "pattern_b")
    ∧ (∀ ctx : SpecialCtx, ctx.cfg = cfg →
        ∀ m ∈ (notify_special_order_core ctx).1, m.1 = cfg.slackDefaultChannel) := by
  refine ⟨rfl, ?_, ?_⟩
  · intro tc₁ tc₂
    constructor <;> simp [pick_channel]
  · intro ctx hctx m hm
    subst hctx
    exact special_cast_loop_channel ctx ctx.payload.castIds 0 0 m hm

/-- The concrete special-order context used by witnesses: two casts, one
internal and one external, one date. -/
def ctx_w : SpecialCtx :=
  { cfg := { slackDefaultChannel := some "C_DEF" }
    cast_map := [("c1", ⟨"Alice", "alice@x.jp", "U1", "内部"⟩),
                 ("c2", ⟨"Bob", "bob@x.jp", "U2", "外部"⟩)]
    email_map := [("boss@x.jp", "U9")]
    payload := { orderType := "external", title := "T", dates := ["2026-01-01"],
                 startTime := "10:00", endTime := "12:00",
                 castIds := ["c1", "c2"], ordererEmail := "boss@x.jp" }
    uuids := fun k => toString k
    slack := fun _ => (some "111.222", "https://slack/p")
    timestamp := "2026-10-12 00:00:00" }

/-- C5 witness: the first special-order message of a concrete request
goes to the configured default channel. -/
theorem c5_witness :
    ((notify_special_order_core ctx_w).1.headD (none, "")).1
      = ctx_w.cfg.slackDefaultChannel := by
  have h := (c5_pick_channel_amended ctx_w.cfg "pattern_a").2.2 ctx_w rfl
  exact h ((notify_special_order_core ctx_w).1.headD (none, "")) (by decide)

/-- C10 confirmed: the additional-order variant of the composed message
is independent of `ccString` (the branch rebuilds the lines from scratch
and re-adds only the broadcast mention, so no cc line can appear), while
the standard variant does contain the "cc: ..." line whenever a
non-empty ccString is given. -/
theorem c10_additional_has_no_cc_line (cfg : Config) (p : OrderCreatedPayload)
    (c₁ c₂ : Option String) (ue : Option String) :
    (p.isAdditionalOrder = true →
       build_order_lines cfg { p with ccString := c₁ } ue
         = build_order_lines cfg { p with ccString := c₂ } ue)
    ∧ (p.isAdditionalOrder = false → ∀ s, p.ccString = some s → s ≠ "" →
         ("cc: " ++ s) ∈ build_order_lines cfg p ue) := by
  constructor
  · intro h
    simp [build_order_lines, h]
  · intro h s hcc hs
    have hempty : s.isEmpty = false := by
      cases hne : s.isEmpty
      · rfl
      · exact absurd ((String.isEmpty_iff s).mp hne) hs
    simp [build_order_lines, h, hcc, py_truthy, hempty, List.mem_append]

/-- Concrete standard-order payload with a cc string. -/
def p_c10 : OrderCreatedPayload :=
  { accountName := "acc", projectName := "P", projectId := "pid",
    dateRanges := ["d1"], orders := [], ccString := some "Alice" }

/-- C10 witness: the standard variant of a concrete payload carries its
cc line; the additional variant of the same payload is unchanged when
the cc string is dropped. -/
theorem c10_witness :
    ("cc: Alice" ∈ build_order_lines { slackMentionGroupId := some "G" } p_c10 none)
    ∧ build_order_lines { slackMentionGroupId := some "G" }
        { p_c10 with isAdditionalOrder := true } none
      = build_order_lines { slackMentionGroupId := some "G" }
        { p_c10 with isAdditionalOrder := true, ccString := none } none := by
  constructor
  · exact (c10_additional_has_no_cc_line { slackMentionGroupId := some "G" } p_c10
      (some "Alice") none none).2 rfl "Alice" rfl (by decide)
  · exact (c10_additional_has_no_cc_line { slackMentionGroupId := some "G" }
      { p_c10 with isAdditionalOrder := true } (some "Alice") none none).1 rfl

/-- Observation: the candidate bucket of a role in a role dict. -/
def role_cands : RoleGroups → String → List OrderItem
  | [], _ => []
  | (a, cs) :: rest, r => if a = r then cs else role_cands rest r

/-- Observation: the candidate bucket of (project, role) in the grouped
structure. -/
def proj_role_cands : ProjectGroups → String → String → List OrderItem
  | [], _, _ => []
  | (a, rs) :: rest, p, r => if a = p then role_cands rs r else proj_role_cands rest p r

/-- Observation: the role names of a project, in bucket order. -/
def roles_of : ProjectGroups → String → List String
  | [], _ => []
  | (a, rs) :: rest, p => if a = p then rs.map Prod.fst else roles_of rest p

/-- First-seen deduplication starting from an accumulator. -/
def first_seen_from (acc : List String) (l : List String) : List String :=
  l.foldl (fun ns n => if n ∈ ns then ns else ns ++ [n]) acc

/-- The spec's "first-seen order": each name listed once, at the
position of its first occurrence. -/
def first_seen (l : List String) : List String :=
  first_seen_from [] l

lemma role_cands_add_to_role (rs : RoleGroups) (o : OrderItem) (r : String) :
    role_cands (add_to_role rs o) r =
      if o.roleName = r then role_cands rs r ++ [o] else role_cands rs r := by
  induction rs with
  | nil => by_cases h : o.roleName = r <;> simp [add_to_role, role_cands, h]
  | cons hd tl ih =>
      obtain ⟨a, cs⟩ := hd
      by_cases h1 : a = o.roleName
      · subst h1
        by_cases h2 : o.roleName = r <;> simp [add_to_role, role_cands, h2]
      · by_cases h2 : a = r
        · subst h2
          have h3 : ¬ o.roleName = a := fun h => h1 h.symm
          simp [add_to_role, role_cands, h1, h3]
        · simp [add_to_role, role_cands, h1, h2, ih]

lemma proj_role_cands_add_to_project (g : ProjectGroups) (o : OrderItem) (p r : String) :
    proj_role_cands (add_to_project g o) p r =
      if o.projectName = p ∧ o.roleName = r then proj_role_cands g p r ++ [o]
      else proj_role_cands g p r := by
  induction g with
  | nil =>
      by_cases h1 : o.projectName = p
      · by_cases h2 : o.roleName = r <;>
          simp [add_to_project, proj_role_cands, role_cands, h1, h2]
      · simp [add_to_project, proj_role_cands, role_cands, h1]
  | cons hd tl ih =>
      obtain ⟨a, rs⟩ := hd
      by_cases h1 : a = o.projectName
      · subst h1
        by_cases h2 : o.projectName = p
        · simp [add_to_project, proj_role_cands, h2, role_cands_add_to_role]
        · simp [add_to_project, proj_role_cands, h2]
      · by_cases h2 : a = p
        · subst h2
          have h3 : ¬ o.projectName = a := fun h => h1 h.symm
          simp [add_to_project, proj_role_cands, h1, h3]
        · simp [add_to_project, proj_role_cands, h1, h2, ih]

lemma proj_role_cands_foldl (os : List OrderItem) (g : ProjectGroups) (p r : String) :
    proj_role_cands (os.foldl add_to_project g) p r =
      proj_role_cands g p r
        ++ os.filter (fun o => decide (o.projectName = p ∧ o.roleName = r)) := by
  induction os generalizing g with
  | nil => simp
  | cons o os ih =>
      simp only [List.foldl_cons, ih, proj_role_cands_add_to_project, List.filter_cons]
      by_cases h : o.projectName = p ∧ o.roleName = r <;> simp [h]

lemma map_fst_add_to_project (g : ProjectGroups) (o : OrderItem) :
    (add_to_project g o).map Prod.fst =
      if o.projectName ∈ g.map Prod.fst then g.map Prod.fst
      else g.map Prod.fst ++ [o.projectName] := by
  induction g with
  | nil => simp [add_to_project]
  | cons hd tl ih =>
      obtain ⟨a, rs⟩ := hd
      by_cases h1 : a = o.projectName
      · subst h1
        simp [add_to_project]
      · have h2 : ¬ o.projectName = a := fun h => h1 h.symm
        simp only [add_to_project, if_neg h1, List.map_cons, List.mem_cons, ih]
        by_cases h3 : o.projectName ∈ tl.map Prod.fst <;> simp [h2, h3]

lemma map_fst_foldl_add_to_project (os : List OrderItem) (g : ProjectGroups) :
    (os.foldl add_to_project g).map Prod.fst =
      first_seen_from (g.map Prod.fst) (os.map (·.projectName)) := by
  induction os generalizing g with
  | nil => simp [first_seen_from]
  | cons o os ih =>
      simp only [List.foldl_cons, List.map_cons, ih, first_seen_from, List.foldl_cons]
      rw [map_fst_add_to_project]

lemma map_fst_add_to_role (rs : RoleGroups) (o : OrderItem) :
    (add_to_role rs o).map Prod.fst =
      if o.roleName ∈ rs.map Prod.fst then rs.map Prod.fst
      else rs.map Prod.fst ++ [o.roleName] := by
  induction rs with
  | nil => simp [add_to_role]
  | cons hd tl ih =>
      obtain ⟨a, cs⟩ := hd
      by_cases h1 : a = o.roleName
      · subst h1
        simp [add_to_role]
      · have h2 : ¬ o.roleName = a := fun h => h1 h.symm
        simp only [add_to_role, if_neg h1, List.map_cons, List.mem_cons, ih]
        by_cases h3 : o.roleName ∈ tl.map Prod.fst <;> simp [h2, h3]

lemma roles_of_add_to_project (g : ProjectGroups) (o : OrderItem) (p : String) :
    roles_of (add_to_project g o) p =
      if o.projectName = p then
        (if o.roleName ∈ roles_of g p then roles_of g p
         else roles_of g p ++ [o.roleName])
      else roles_of g p := by
  induction g with
  | nil =>
      by_cases h1 : o.projectName = p <;>
        simp [add_to_project, roles_of, h1]
  | cons hd tl ih =>
      obtain ⟨a, rs⟩ := hd
      by_cases h1 : a = o.projectName
      · subst h1
        by_cases h2 : o.projectName = p
        · simp [add_to_project, roles_of, h2, map_fst_add_to_role]
          rw [if_pos h2]
        · simp [add_to_project, roles_of, h2]
      · by_cases h2 : a = p
        · subst h2
          have h3 : ¬ o.projectName = a := fun h => h1 h.symm
          simp [add_to_project, roles_of, h1, h3]
        · simp [add_to_project, roles_of, h1, h2, ih]

lemma roles_of_foldl (os : List OrderItem) (g : ProjectGroups) (p : String) :
    roles_of (os.foldl add_to_project g) p =
      first_seen_from (roles_of g p)
        ((os.filter (fun o => decide (o.projectName = p))).map (·.roleName)) := by
  induction os generalizing g with
  | nil => simp [first_seen_from]
  | cons o os ih =>
      simp only [List.foldl_cons, ih, roles_of_add_to_project, List.filter_cons]
      by_cases h : o.projectName = p
      · simp [h, first_seen_from]
      · simp [h]

lemma mem_ordered_insert_rank {y o : OrderItem} {l : List OrderItem} :
    y ∈ ordered_insert_rank o l ↔ y = o ∨ y ∈ l := by
  induction l with
  | nil => simp [ordered_insert_rank]
  | cons x xs ih =>
      by_cases h : o.rank < x.rank
      · simp [ordered_insert_rank, h, or_comm, or_left_comm]
      · simp [ordered_insert_rank, h, ih, or_comm, or_left_comm]

lemma pairwise_ordered_insert_rank {o : OrderItem} {l : List OrderItem}
    (h : l.Pairwise (fun a b => a.rank ≤ b.rank)) :
    (ordered_insert_rank o l).Pairwise (fun a b => a.rank ≤ b.rank) := by
  induction l with
  | nil => simp [ordered_insert_rank]
  | cons x xs ih =>
      rcases List.pairwise_cons.mp h with ⟨hx, hxs⟩
      by_cases hlt : o.rank < x.rank
      · simp only [ordered_insert_rank, if_pos hlt]
        refine List.pairwise_cons.mpr ⟨?_, h⟩
        intro y hy
        rcases List.mem_cons.mp hy with rfl | hy
        · exact le_of_lt hlt
        · exact le_trans (le_of_lt hlt) (hx y hy)
      · simp only [ordered_insert_rank, if_neg hlt]
        refine List.pairwise_cons.mpr ⟨?_, ih hxs⟩
        intro y hy
        rcases mem_ordered_insert_rank.mp hy with rfl | hy
        · exact le_of_not_lt hlt
        · exact hx y hy

lemma perm_ordered_insert_rank (o : OrderItem) (l : List OrderItem) :
    List.Perm (ordered_insert_rank o l) (o :: l) := by
  induction l with
  | nil => simp [ordered_insert_rank]
  | cons x xs ih =>
      by_cases h : o.rank < x.rank
      · simp [ordered_insert_rank, h]
      · simp only [ordered_insert_rank, if_neg h]
        exact (List.Perm.cons x ih).trans (List.Perm.swap o x xs)

lemma filter_ordered_insert_rank (k : Int) (o : OrderItem) (l : List OrderItem)
    (h : l.Pairwise (fun a b => a.rank ≤ b.rank)) :
    (ordered_insert_rank o l).filter (fun x => decide (x.rank = k)) =
      l.filter (fun x => decide (x.rank = k))
        ++ (if o.rank = k then [o] else []) := by
  induction l with
  | nil =>
      by_cases hk : o.rank = k <;> simp [ordered_insert_rank, hk]
  | cons x xs ih =>
      rcases List.pairwise_cons.mp h with ⟨hx, hxs⟩
      by_cases hlt : o.rank < x.rank
      · simp only [ordered_insert_rank, if_pos hlt]
        by_cases hk : o.rank = k
        · have hxk : ¬ x.rank = k := by
            intro hxk
            exact absurd (hxk ▸ hlt) (by simp [hk])
          have hall : (x :: xs).filter (fun y => decide (y.rank = k)) = [] := by
            apply List.filter_eq_nil_iff.mpr
            intro y hy
            rcases List.mem_cons.mp hy with rfl | hy
            · simp [hxk]
            · have : ¬ y.rank = k := by
                intro hyk
                have := hx y hy
                omega
              simp [this]
          simp [List.filter_cons, hk, hxk, hall]
        · simp [List.filter_cons, hk]
      · simp only [ordered_insert_rank, if_neg hlt]
        by_cases hxk : x.rank = k <;>
          simp [List.filter_cons, hxk, ih hxs]

lemma pairwise_sort_foldl (l acc : List OrderItem)
    (h : acc.Pairwise (fun a b => a.rank ≤ b.rank)) :
    (l.foldl (fun acc o => ordered_insert_rank o acc) acc).Pairwise
      (fun a b => a.rank ≤ b.rank) := by
  induction l generalizing acc with
  | nil => simpa using h
  | cons o os ih =>
      simp only [List.foldl_cons]
      exact ih _ (pairwise_ordered_insert_rank h)

lemma perm_sort_foldl (l acc : List OrderItem) :
    List.Perm (l.foldl (fun acc o => ordered_insert_rank o acc) acc) (acc ++ l) := by
  induction l generalizing acc with
  | nil => simp
  | cons o os ih =>
      simp only [List.foldl_cons]
      refine (ih _).trans ?_
      refine (List.Perm.append_right os (perm_ordered_insert_rank o acc)).trans ?_
      exact List.perm_middle.symm

lemma filter_sort_foldl (k : Int) (l acc : List OrderItem)
    (h : acc.Pairwise (fun a b => a.rank ≤ b.rank)) :
    (l.foldl (fun acc o => ordered_insert_rank o acc) acc).filter
        (fun x => decide (x.rank = k)) =
      acc.filter (fun x => decide (x.rank = k))
        ++ l.filter (fun x => decide (x.rank = k)) := by
  induction l generalizing acc with
  | nil => simp
  | cons o os ih =>
      simp only [List.foldl_cons]
      rw [ih _ (pairwise_ordered_insert_rank h), filter_ordered_insert_rank k o acc h,
        List.filter_cons]
      by_cases hk : o.rank = k <;> simp [hk]

/-- C2 corrected (grouping and the standard-variant sort): candidates
are grouped by project in first-seen project order, by role in
first-seen role order within each project, the bucket of a (project,
role) pair holds exactly its candidates in input order, and the rank
sort applied by the standard variant is an ascending stable sort: the
sorted bucket is a permutation of the bucket, pairwise ordered by rank,
and preserves the input order of every rank class.  The additional-order
variant renders the buckets unsorted (see the counterexample). -/
theorem c2_grouping_and_stable_sort (os : List OrderItem) :
    ((group_orders os).map Prod.fst = first_seen (os.map (·.projectName)))
    ∧ (∀ p, roles_of (group_orders os) p
          = first_seen ((os.filter (fun o => decide (o.projectName = p))).map (·.roleName)))
    ∧ (∀ p r, proj_role_cands (group_orders os) p r
          = os.filter (fun o => decide (o.projectName = p ∧ o.roleName = r)))
    ∧ (∀ p r, (sort_by_rank (proj_role_cands (group_orders os) p r)).Pairwise
          (fun a b => a.rank ≤ b.rank))
    ∧ (∀ p r, List.Perm (sort_by_rank (proj_role_cands (group_orders os) p r))
          (proj_role_cands (group_orders os) p r))
    ∧ (∀ p r k, (sort_by_rank (proj_role_cands (group_orders os) p r)).filter
            (fun x => decide (x.rank = k))
          = (proj_role_cands (group_orders os) p r).filter
            (fun x => decide (x.rank = k))) := by
  refine ⟨?_, ?_, ?_, ?_, ?_, ?_⟩
  · simpa [first_seen] using map_fst_foldl_add_to_project os []
  · intro p
    simpa [first_seen, roles_of] using roles_of_foldl os [] p
  · intro p r
    simpa [proj_role_cands] using proj_role_cands_foldl os [] p r
  · intro p r
    exact pairwise_sort_foldl _ [] (by simp)
  · intro p r
    simpa [sort_by_rank] using perm_sort_foldl (proj_role_cands (group_orders os) p r) []
  · intro p r k
    simpa [sort_by_rank] using
      filter_sort_foldl k (proj_role_cands (group_orders os) p r) [] (by simp)

/-- The concrete additional-order payload refuting the "every variant
sorts by rank" part of claim C2: one role with candidates B (rank 2)
then A (rank 1), in that input order. -/
def p_c2 : OrderCreatedPayload :=
  { accountName := "acc", projectName := "P", projectId := "pid",
    dateRanges := ["d1"],
    orders := [⟨"c1", "R", "B", 2, "", "P", none, none⟩,
               ⟨"c2", "R", "A", 1, "", "P", none, none⟩],
    isAdditionalOrder := true }

/-- C2 counterexample: the additional-order message lists the rank-2
candidate before the rank-1 candidate (input order), while the stable
rank sort of the same bucket would list A before B — so the
grouping/sort rule does not apply to the additional-order variant. -/
theorem c2_counterexample :
    "R：B / A" ∈ build_order_lines {} p_c2 none
    ∧ "R：A / B" ∉ build_order_lines {} p_c2 none
    ∧ (sort_by_rank (proj_role_cands (group_orders p_c2.orders) "P" "R")).map
        (·.castName) = ["A", "B"] := by
  decide

/-- C8 amended: on an empty candidate list the standard compose still
produces a line list (total, no exception); the project-name block
renders the placeholder "未定", while the role block renders only its
"`役名`" header with no content and no placeholder. -/
theorem c8_empty_orders_amended (cfg : Config) (p : OrderCreatedPayload)
    (ue : Option String) (h₁ : p.orders = []) (h₂ : p.isAdditionalOrder = false) :
    ∃ l₁ l₂, build_order_lines cfg p ue
      = l₁ ++ ["`作品名`", "未定", "", "`役名`", "", "`Notionリンク`"] ++ l₂ := by
  refine ⟨mention_lines cfg
      ++ (if py_truthy p.ccString then ["cc: " ++ p.ccString.getD ""] else [])
      ++ ["キャスティングオーダーがありました。"]
      ++ (if py_truthy ue then
            ["", "⚠️ **PDF送信に失敗したので、Slackにて手動での添付をお願いします**",
             "Reason: " ++ ue.getD ""]
          else [])
      ++ ["", "`撮影日`"] ++ p.dateRanges.map (fun d => "・" ++ d) ++ [""]
      ++ ["`アカウント`", py_or_str p.accountName "未入力", ""],
    [if ¬ p.projectId.isEmpty then
       "https://www.notion.so/" ++ py_replace1 '-' "" p.projectId
     else "未設定",
     "\n--------------------------------------------------"], ?_⟩
  simp [build_order_lines, h₁, h₂, group_orders, concat_map]

/-- The concrete empty-orders payload for claim C8. -/
def p_c8 : OrderCreatedPayload :=
  { accountName := "", projectName := "P", projectId := "pid",
    dateRanges := [], orders := [] }

/-- C8 counterexample: with an empty candidate list the rendered lines
contain exactly one "未定" — it sits in the project-name block; the role
block renders its header followed directly by the empty separator and
the Notion block, with no placeholder, contradicting the claim that both
the project and the role blocks render "未定". -/
theorem c8_counterexample :
    (build_order_lines {} p_c8 none).count "未定" = 1
    ∧ build_order_lines {} p_c8 none
      = ["キャスティングオーダーがありました。", "", "`撮影日`", "", "`アカウント`", "未入力",
         "", "`作品名`", "未定", "", "`役名`", "", "`Notionリンク`",
         "https://www.notion.so/pid",
         "\n--------------------------------------------------"] := by
  decide

/-- C8 witness: the amended statement instantiated at the concrete
empty-orders payload. -/
theorem c8_witness :
    ∃ l₁ l₂, build_order_lines {} p_c8 none
      = l₁ ++ ["`作品名`", "未定", "", "`役名`", "", "`Notionリンク`"] ++ l₂ :=
  c8_empty_orders_amended {} p_c8 none rfl rfl

/-- C1 confirmed: whenever `notify_order_created` returns success,
exactly one chat message was delivered (upload-with-caption and
plain-text are mutually exclusive); and when the upload raises a
transport error and the request still succeeds, the response carries
that error in `upload_error` and the single delivered message is the
plain-text fallback with the error embedded in its body. -/
theorem c1_exactly_one_message (cfg : Config) (payload : OrderCreatedPayload)
    (files : List String) (out : SlackOutcomes) :
    (∀ r, (notify_order_created cfg payload files out).1 = .ok r →
       (notify_order_created cfg payload files out).2.length = 1)
    ∧ (∀ e r, files ≠ [] → out.uploadRes = .error e →
        (notify_order_created cfg payload files out).1 = .ok r →
        r.upload_error = some e
        ∧ (notify_order_created cfg payload files out).2
          = [Sent.text (pick_channel cfg payload.orderType)
              (build_order_text cfg payload (some e))]) := by
  constructor
  · intro r hr
    cases hf : files with
    | nil =>
        cases ht : out.textRes with
        | ok ts => simp [notify_order_created, hf, ht]
        | error e => simp [notify_order_created, hf, ht] at hr
    | cons f fs =>
        cases hu : out.uploadRes with
        | ok ts => simp [notify_order_created, hf, hu]
        | error e =>
            cases ht : out.textRes with
            | ok ts => simp [notify_order_created, hf, hu, ht]
            | error e2 => simp [notify_order_created, hf, hu, ht] at hr
  · intro e r hfiles hu hr
    cases hf : files with
    | nil => exact absurd hf hfiles
    | cons f fs =>
        cases ht : out.textRes with
        | ok ts =>
            rw [hf] at hr
            simp [notify_order_created, hu, ht] at hr
            constructor
            · rw [← hr]
            · simp [notify_order_created, hf, hu, ht]
        | error e2 =>
            rw [hf] at hr
            simp [notify_order_created, hu, ht] at hr

/-- Concrete order payload and Slack outcomes for the C1 witness: a file
is attached, the upload raises "boom", the fallback text post succeeds. -/
def out_c1 : SlackOutcomes :=
  { uploadRes := .error "boom", textRes := .ok (some "123.45"),
    permalinkRes := .ok "https://slack/x" }

/-- Concrete payload for the C1 witness. -/
def p_c1 : OrderCreatedPayload :=
  { accountName := "a", projectName := "P", projectId := "",
    dateRanges := ["d"], orders := [] }

/-- C1 witness: at the concrete failing-upload request the response
carries `upload_error = some "boom"` and exactly the plain-text fallback
message was delivered. -/
theorem c1_witness :
    (⟨true, some "123.45", "https://slack/x", some "boom"⟩ : OrderResponse).upload_error
        = some "boom"
    ∧ (notify_order_created {} p_c1 ["f.pdf"] out_c1).2
      = [Sent.text (pick_channel {} p_c1.orderType)
          (build_order_text {} p_c1 (some "boom"))] :=
  (c1_exactly_one_message {} p_c1 ["f.pdf"] out_c1).2 "boom"
    ⟨true, some "123.45", "https://slack/x", some "boom"⟩
    (by decide) rfl rfl

lemma notify_status_update_scheduled (cfg : Config) (p : StatusUpdatePayload)
    (o : Except String Unit) :
    (notify_status_update cfg p o).2 =
      if (p.newStatus = "OK" ∨ p.newStatus = "決定")
          ∧ py_truthy p.projectId ∧ ¬ p.castName.isEmpty
      then [p] else [] := by
  rcases o with e | u <;>
    · simp only [notify_status_update]
      split_ifs <;> rfl

lemma sync_posts_of_configured (cfg : Config) (q : StatusUpdatePayload)
    (t : Except String (Nat × String)) (hgas : py_truthy cfg.gasUrlNotionSync = true) :
    (sync_to_notion_via_gas cfg q t).1 = [gas_payload q] := by
  rcases t with e | ⟨st, body⟩
  · simp [sync_to_notion_via_gas, hgas]
  · by_cases hst : st = 200 <;> simp [sync_to_notion_via_gas, hgas, hst]

/-- C7 confirmed: with the automation endpoint configured, the pipeline
POSTs the reduced payload {pageId, castName, isInternal, orderDetails}
exactly when newStatus is "OK" or "決定" and both projectId and castName
are truthy; otherwise nothing is posted; the caller-visible endpoint
result never depends on the relay's transport outcome; and the relay
never retries (at most one POST per scheduled task). -/
theorem c7_sync_relay (cfg : Config) (p : StatusUpdatePayload)
    (o : Except String Unit) (t : Except String (Nat × String))
    (hgas : py_truthy cfg.gasUrlNotionSync = true) :
    ((status_update_pipeline cfg p o t).2 = [gas_payload p]
       ↔ ((p.newStatus = "OK" ∨ p.newStatus = "決定")
            ∧ py_truthy p.projectId = true ∧ ¬ p.castName.isEmpty))
    ∧ ((status_update_pipeline cfg p o t).2 = [gas_payload p]
        ∨ (status_update_pipeline cfg p o t).2 = [])
    ∧ (∀ t₁ t₂, (status_update_pipeline cfg p o t₁).1
          = (status_update_pipeline cfg p o t₂).1)
    ∧ (∀ (q : StatusUpdatePayload) (s : Except String (Nat × String)),
        ((sync_to_notion_via_gas cfg q s).1).length ≤ 1)
    ∧ gas_payload p = ⟨p.projectId, p.castName, p.isInternal, p.orderDetails⟩ := by
  have hpipe : (status_update_pipeline cfg p o t).2 =
      if (p.newStatus = "OK" ∨ p.newStatus = "決定")
          ∧ py_truthy p.projectId ∧ ¬ p.castName.isEmpty
      then [gas_payload p] else [] := by
    simp only [status_update_pipeline, notify_status_update_scheduled]
    split_ifs with h
    · simp [concat_map, sync_posts_of_configured cfg p t hgas]
    · simp [concat_map]
  refine ⟨?_, ?_, ?_, ?_, rfl⟩
  · rw [hpipe]
    split_ifs with h
    · simp [h]
    · simp [h]
      tauto
  · rw [hpipe]
    split_ifs <;> simp
  · intro t₁ t₂
    rfl
  · intro q s
    rcases s with e | ⟨st, body⟩ <;>
      · simp only [sync_to_notion_via_gas]
        split_ifs <;> simp

/-- Concrete configuration and status event for the C7 witness. -/
def cfg_c7 : Config := { gasUrlNotionSync := some "https://gas.example/exec" }

/-- Concrete status event for the C7 witness: OK status with projectId
and castName present. -/
def p_c7 : StatusUpdatePayload :=
  { castingId := "x1", newStatus := "OK", castName := "N",
    projectId := some "pg1" }

/-- C7 witness: the concrete OK event with both fields present is
relayed as exactly one reduced POST, even though the transport errors. -/
theorem c7_witness :
    (status_update_pipeline cfg_c7 p_c7 (.ok ()) (.error "net down")).2
      = [gas_payload p_c7] :=
  ((c7_sync_relay cfg_c7 p_c7 (.ok ()) (.error "net down") rfl).1).mpr
    (by decide)

/-- C9 confirmed: the cast map is built from the general roster alone,
so resolution is independent of the internal roster; rows too short to
carry the type column (index 9) parse with type "外部", and missing
trailing email / slack columns default to the empty string; an unknown
id, or an empty type cell, also resolves to "外部". -/
theorem c9_cast_directory_defaults :
    (∀ (ir₁ ir₂ gr : List (List String)) (cid : String),
       resolve_cast_type (load_special_maps ir₁ gr).1 cid
         = resolve_cast_type (load_special_maps ir₂ gr).1 cid)
    ∧ (∀ (row : List String) (cid : String) (info : CastInfo),
        parse_cast_row row = some (cid, info) →
        (row.length ≤ 9 → info.ctype = "外部")
        ∧ (row.length ≤ 7 → info.email = "")
        ∧ (row.length ≤ 10 → info.slack_id = ""))
    ∧ (∀ (m : List (String × CastInfo)) (cid : String),
        dict_get m cid = none → resolve_cast_type m cid = "外部")
    ∧ (∀ (m : List (String × CastInfo)) (cid : String) (c : CastInfo),
        dict_get m cid = some c → c.ctype = "" → resolve_cast_type m cid = "外部") := by
  refine ⟨fun ir₁ ir₂ gr cid => rfl, ?_, ?_, ?_⟩
  · intro row cid info h
    by_cases h1 : row.length < 2
    · simp [parse_cast_row, h1] at h
    · simp only [parse_cast_row, if_neg h1] at h
      by_cases h2 : py_strip (row.getD 0 "") = ""
      · rw [if_pos h2] at h
        exact Option.noConfusion h
      · rw [if_neg h2] at h
        injection h with h3
        injection h3 with hcid hinfo
        refine ⟨?_, ?_, ?_⟩
        · intro hlen
          have h9 : ¬ row.length > 9 := by omega
          rw [← hinfo]
          simp [h9]
        · intro hlen
          have h7 : ¬ row.length > 7 := by omega
          rw [← hinfo]
          simp [h7]
        · intro hlen
          have h10 : ¬ row.length > 10 := by omega
          rw [← hinfo]
          simp [h10]
  · intro m cid h
    simp [resolve_cast_type, h]
  · intro m cid c h hc
    simp only [resolve_cast_type, h, hc, py_or_str]
    rfl

/-- Concrete rosters for the C9 witness: the id is present in the
general roster with a 2-cell row (no type column) and absent from the
internal roster. -/
def gr_c9 : List (List String) :=
  [["id", "name"], ["c9", "Carol"]]

/-- C9 witness: a general-roster row too short for the type column
resolves to "外部", whatever the internal roster holds. -/
theorem c9_witness :
    (∀ info, parse_cast_row ["c9", "Carol"] = some ("c9", info) → info.ctype = "外部")
    ∧ resolve_cast_type (load_special_maps [] gr_c9).1 "c9"
        = resolve_cast_type (load_special_maps [["h"], ["n", "", "", "x@y", "U"]] gr_c9).1 "c9" := by
  constructor
  · intro info h
    exact ((c9_cast_directory_defaults.2.1 ["c9", "Carol"] "c9" info) h).1 (by decide)
  · exact c9_cast_directory_defaults.1 [] [["h"], ["n", "", "", "x@y", "U"]] gr_c9 "c9"

section SpecialOrderLemmas

variable (u : Nat → String) (an ti cs cn st tr : String) (ts : Option String)
variable (pl tstamp oe cty ce : String) (ii : Bool)

lemma sdl_rows_map_length : ∀ (ds : List String) (k : Nat),
    ((special_dates_loop u an ti cs cn st tr ts pl tstamp oe cty ce ii ds k).1).map
        List.length
      = List.replicate ds.length 23 := by
  intro ds
  induction ds with
  | nil => intro k; rfl
  | cons d rest ih =>
      intro k
      simp [special_dates_loop, mk_special_row, ih, List.replicate_succ]

lemma sdl_rows_map_cell9 : ∀ (ds : List String) (k : Nat),
    ((special_dates_loop u an ti cs cn st tr ts pl tstamp oe cty ce ii ds k).1).map
        (fun r => r[9]?)
      = List.replicate ds.length (some (Cell.str st)) := by
  intro ds
  induction ds with
  | nil => intro k; rfl
  | cons d rest ih =>
      intro k
      simp [special_dates_loop, mk_special_row, ih, List.replicate_succ]

lemma sdl_events_length : ∀ (ds : List String) (k : Nat),
    ((special_dates_loop u an ti cs cn st tr ts pl tstamp oe cty ce ii ds k).2).length
      = if ii then ds.length else 0 := by
  intro ds
  induction ds with
  | nil => intro k; cases ii <;> rfl
  | cons d rest ih =>
      intro k
      cases ii <;> simp [special_dates_loop, ih]

lemma sdl_events_mem : ∀ (ds : List String) (k : Nat) (ev : CalEvent),
    ev ∈ (special_dates_loop u an ti cs cn st tr ts pl tstamp oe cty ce ii ds k).2 →
    ev.status = st ∧ ev.rowNumber = none ∧ ii = true := by
  intro ds
  induction ds with
  | nil => intro k ev hev; simp [special_dates_loop] at hev
  | cons d rest ih =>
      intro k ev hev
      simp only [special_dates_loop] at hev
      rcases List.mem_append.mp hev with h | h
      · split_ifs at h with hi
        · rcases List.mem_singleton.mp h with rfl
          exact ⟨rfl, rfl, hi⟩
        · simp at h
      · exact ih (k + 1) ev h

end SpecialOrderLemmas

lemma resolve_cast_type_eq (m : List (String × CastInfo)) (c : String) :
    py_or_str (cast_get_ctype (dict_get m c)) "外部" = resolve_cast_type m c := by
  cases h : dict_get m c
  · simp only [resolve_cast_type, cast_get_ctype, h, py_or_str]
    rfl
  · simp [resolve_cast_type, cast_get_ctype, h]

lemma scl_rows_map_length (ctx : SpecialCtx) : ∀ (cids : List String) (ci k : Nat),
    ((special_cast_loop ctx cids ci k).2.1).map List.length
      = List.replicate (cids.length * ctx.payload.dates.length) 23 := by
  intro cids
  induction cids with
  | nil => intro ci k; simp [special_cast_loop]
  | cons c rest ih =>
      intro ci k
      simp only [special_cast_loop, List.map_append, List.length_cons]
      rw [sdl_rows_map_length, ih, ← List.replicate_add]
      congr 1
      ring

lemma scl_rows_map_cell9 (ctx : SpecialCtx) : ∀ (cids : List String) (ci k : Nat),
    ((special_cast_loop ctx cids ci k).2.1).map (fun r => r[9]?)
      = concat_map (fun cid => List.replicate ctx.payload.dates.length
          (some (Cell.str
            (if resolve_cast_type ctx.cast_map (py_strip cid) = "内部"
             then "仮キャスティング" else "決定")))) cids := by
  intro cids
  induction cids with
  | nil => intro ci k; rfl
  | cons c rest ih =>
      intro ci k
      simp only [special_cast_loop, List.map_append, concat_map]
      rw [sdl_rows_map_cell9, ih, resolve_cast_type_eq]

lemma scl_events_length (ctx : SpecialCtx) : ∀ (cids : List String) (ci k : Nat),
    ((special_cast_loop ctx cids ci k).2.2).length
      = (cids.filter (fun cid =>
            decide (resolve_cast_type ctx.cast_map (py_strip cid) = "内部"))).length
          * ctx.payload.dates.length := by
  intro cids
  induction cids with
  | nil => intro ci k; simp [special_cast_loop]
  | cons c rest ih =>
      intro ci k
      simp only [special_cast_loop, List.length_append, List.filter_cons]
      rw [sdl_events_length, ih]
      rw [← resolve_cast_type_eq ctx.cast_map (py_strip c)]
      by_cases h : py_or_str (cast_get_ctype (dict_get ctx.cast_map (py_strip c))) "外部"
          = "内部"
      · simp only [h, decide_eq_true_eq, if_pos, if_true, List.length_cons]
        ring
      · simp [h]

lemma scl_events_mem (ctx : SpecialCtx) : ∀ (cids : List String) (ci k : Nat)
    (ev : CalEvent), ev ∈ (special_cast_loop ctx cids ci k).2.2 →
    ev.status = "仮キャスティング" ∧ ev.rowNumber = none := by
  intro cids
  induction cids with
  | nil => intro ci k ev hev; simp [special_cast_loop] at hev
  | cons c rest ih =>
      intro ci k ev hev
      simp only [special_cast_loop] at hev
      rcases List.mem_append.mp hev with h | h
      · obtain ⟨hst, hrow, hii⟩ :=
          sdl_events_mem _ _ _ _ _ _ _ _ _ _ _ _ _ _ ctx.payload.dates k ev h
        refine ⟨?_, hrow⟩
        rw [hst, if_pos (of_decide_eq_true hii)]
      · exact ih (ci + 1) (k + ctx.payload.dates.length) ev h

/-- C6 confirmed: `notify_special_order` appends exactly one 23-cell
ledger row per (castId, date) pair, in order; the status cell at
position 9 of each row reads "仮キャスティング" when the resolved cast
type is internal ("内部") and "決定" otherwise; and the calendar-event
descriptor list holds exactly one descriptor per date for each internal
cast (so external casts never appear in it), every descriptor carrying
the provisional status and a null row number. -/
theorem c6_special_order_rows_and_events (ctx : SpecialCtx) :
    ((notify_special_order_core ctx).2.1).map List.length
      = List.replicate (ctx.payload.castIds.length * ctx.payload.dates.length) 23
    ∧ ((notify_special_order_core ctx).2.1).map (fun r => r[9]?)
      = concat_map (fun cid => List.replicate ctx.payload.dates.length
          (some (Cell.str
            (if resolve_cast_type ctx.cast_map (py_strip cid) = "内部"
             then "仮キャスティング" else "決定")))) ctx.payload.castIds
    ∧ ((notify_special_order_core ctx).2.2).length
      = (ctx.payload.castIds.filter (fun cid =>
            decide (resolve_cast_type ctx.cast_map (py_strip cid) = "内部"))).length
          * ctx.payload.dates.length
    ∧ (∀ ev ∈ (notify_special_order_core ctx).2.2,
        ev.status = "仮キャスティング" ∧ ev.rowNumber = none) :=
  ⟨scl_rows_map_length ctx ctx.payload.castIds 0 0,
   scl_rows_map_cell9 ctx ctx.payload.castIds 0 0,
   scl_events_length ctx ctx.payload.castIds 0 0,
   fun ev hev => scl_events_mem ctx ctx.payload.castIds 0 0 ev hev⟩

/-- C6 witness: in the concrete two-cast (one internal, one external),
one-date request, the single calendar descriptor carries the provisional
status and a null row number. -/
theorem c6_witness :
    ((notify_special_order_core ctx_w).2.2.headD
        ⟨"", "", "", "", "", "", "", "", "", "", none⟩).status = "仮キャスティング"
    ∧ ((notify_special_order_core ctx_w).2.2.headD
        ⟨"", "", "", "", "", "", "", "", "", "", none⟩).rowNumber = none :=
  (c6_special_order_rows_and_events ctx_w).2.2.2 _ (by decide)

lemma dict_get_eq_none_of_not_mem [DecidableEq κ] (l : List (κ × ν)) (k : κ)
    (h : k ∉ l.map Prod.fst) : dict_get l k = none := by
  induction l with
  | nil => rfl
  | cons hd rest ih =>
      obtain ⟨a, v⟩ := hd
      simp only [List.map_cons, List.mem_cons] at h
      push_neg at h
      have hne : ¬ a = k := fun hak => h.1 hak.symm
      simp [dict_get, ih h.2, hne]

lemma id_to_row_map_fst (start : Nat) (rows : List (List Cell)) :
    (id_to_row start rows).map Prod.fst = rows.map row_key := by
  induction rows generalizing start with
  | nil => rfl
  | cons r rs ih => simp [id_to_row, ih]

lemma dict_get_id_to_row (start : Nat) (rows : List (List Cell))
    (h : (rows.map row_key).Nodup) :
    ∀ i (hi : i < rows.length),
      dict_get (id_to_row start rows) (row_key (rows.get ⟨i, hi⟩))
        = some (start + i) := by
  induction rows generalizing start with
  | nil => intro i hi; exact absurd hi (by simp)
  | cons r rs ih =>
      rw [List.map_cons] at h
      rcases List.nodup_cons.mp h with ⟨hnot, hnd⟩
      intro i hi
      cases i with
      | zero =>
          have hnone : dict_get (id_to_row (start + 1) rs) (row_key r) = none := by
            apply dict_get_eq_none_of_not_mem
            rw [id_to_row_map_fst]
            exact hnot
          simp [id_to_row, dict_get, hnone, List.get]
      | succ j =>
          have hj : j < rs.length := by simpa using hi
          have hrec := ih (start + 1) hnd j hj
          simp only [id_to_row, dict_get, List.get, hrec]
          congr 1
          omega

/-- C3 confirmed: after a batch append, the first row number is parsed
from the `updatedRange` address (the digits after the column-A cell
reference); when the parse fails (value 0), the response's calendar
events are empty — no exception, no row numbers; when it succeeds and
the appended casting ids are distinct, the event whose casting id sits
in appended row `i` resolves to row number `firstRow + i`, giving
consecutive numbers for consecutive rows. -/
theorem c3_append_row_resolution (addr : String) (new_rows : List (List Cell))
    (events : List CalEvent) :
    (parse_start_row addr = 0 → calendar_events_response addr new_rows events = [])
    ∧ (0 < parse_start_row addr → (new_rows.map row_key).Nodup →
        ∀ ev ∈ events, ∀ i (hi : i < new_rows.length),
          Cell.str ev.castingId = row_key (new_rows.get ⟨i, hi⟩) →
          { ev with rowNumber := some (parse_start_row addr + i) }
            ∈ calendar_events_response addr new_rows events) := by
  constructor
  · intro h
    simp [calendar_events_response, h]
  · intro hpos hnodup ev hev i hi hkey
    have hnr : new_rows ≠ [] := by
      intro h0
      rw [h0] at hi
      exact absurd hi (by simp)
    have hne : events ≠ [] := List.ne_nil_of_mem hev
    have hm := dict_get_id_to_row (parse_start_row addr) new_rows hnodup i hi
    rw [← hkey] at hm
    simp only [calendar_events_response, if_neg hnr, if_neg hne, if_pos hpos]
    refine List.mem_map.mpr ⟨ev, hev, ?_⟩
    rw [hm]

/-- Concrete appended rows for the C3 witness. -/
def rows_c3 : List (List Cell) := [[Cell.str "a"], [Cell.str "b"], [Cell.str "c"]]

/-- Concrete calendar event for the C3 witness (the second appended id). -/
def ev_c3 : CalEvent :=
  ⟨"b", "acc", "T", "出演", "その他", "d", "d", "e@x", "仮キャスティング", "10 ~ 12", none⟩

/-- Concrete event list for the C3 witness. -/
def evs_c3 : List CalEvent :=
  [⟨"a", "acc", "T", "出演", "その他", "d", "d", "e@x", "仮キャスティング", "10 ~ 12", none⟩,
   ev_c3,
   ⟨"c", "acc", "T", "出演", "その他", "d", "d", "e@x", "仮キャスティング", "10 ~ 12", none⟩]

/-- C3 witness: the sheet address "…!A57:W60" parses to 57; an
unparseable address yields an empty calendar-event response; and the
event appended as row index 1 resolves to row number 58 = 57 + 1. -/
theorem c3_witness :
    parse_start_row "'キャスティングリスト'!A57:W60" = 57
    ∧ calendar_events_response "garbage" rows_c3 evs_c3 = []
    ∧ { ev_c3 with rowNumber := some 58 }
        ∈ calendar_events_response "'キャスティングリスト'!A57:W60" rows_c3 evs_c3 := by
  refine ⟨by decide, (c3_append_row_resolution "garbage" rows_c3 evs_c3).1 (by decide), ?_⟩
  have h := (c3_append_row_resolution "'キャスティングリスト'!A57:W60" rows_c3 evs_c3).2
    (by decide) (by decide) ev_c3 (by decide) 1 (by decide) (by decide)
  exact h

/-- The status-only update payload of the C4 scenario:
`updateCells(row, {status: "OK"})`. -/
def status_only (casting_id : String) : ShootingContactUpdateItem :=
  { castingId := casting_id, status := some "OK" }

/-- C4 confirmed: a status-only partial update writes exactly the status
column J and the always-stamped timestamp column S of the addressed row;
every other cell of the sheet is untouched; the S-column timestamp
update is part of every batched update whatever fields are set; and the
row is addressed by scanning column A for the casting id (1-based). -/
theorem c4_update_frame_and_timestamp (casting_id : String) (row_idx : Nat)
    (now : String) (sheet : String × Nat → String) :
    apply_updates sheet (build_updates (status_only casting_id) row_idx now)
        ("J", row_idx) = "OK"
    ∧ apply_updates sheet (build_updates (status_only casting_id) row_idx now)
        ("S", row_idx) = now
    ∧ (∀ c r, ¬ (c = "J" ∧ r = row_idx) → ¬ (c = "S" ∧ r = row_idx) →
        apply_updates sheet (build_updates (status_only casting_id) row_idx now)
          (c, r) = sheet (c, r))
    ∧ (∀ q : ShootingContactUpdateItem,
        ("S", row_idx, now) ∈ build_updates q row_idx now)
    ∧ (∀ (col_a : List String) (i : Nat),
        col_a.findIdx? (fun s => s == casting_id) = some i →
        update_shooting_contact_status (status_only casting_id) col_a sheet now
          = .ok (apply_updates sheet (build_updates (status_only casting_id) (i + 1) now))) := by
  refine ⟨?_, ?_, ?_, ?_, ?_⟩
  · simp [build_updates, opt_update, apply_updates, status_only]
  · simp [build_updates, opt_update, apply_updates, status_only]
  · intro c r h1 h2
    have n1 : ¬ ((c, r) = (("S" : String), row_idx)) := by
      intro heq
      injection heq with hc hr
      exact h2 ⟨hc, hr⟩
    have n2 : ¬ ((c, r) = (("J" : String), row_idx)) := by
      intro heq
      injection heq with hc hr
      exact h1 ⟨hc, hr⟩
    simp [build_updates, opt_update, apply_updates, status_only, n1, n2]
  · intro q
    simp [build_updates]
  · intro col_a i hidx
    simp [update_shooting_contact_status, status_only, hidx]

/-- The concrete pre-update sheet for the C4 witness. -/
def sheet_c4 : String × Nat → String := fun _ => "old"

/-- C4 witness: at a concrete status-only update of row 5, column K of
row 5 is untouched, column J reads "OK", and the S-column timestamp is
part of the batch. -/
theorem c4_witness :
    apply_updates sheet_c4 (build_updates (status_only "id1") 5 "2026-10-12")
        ("K", 5) = sheet_c4 ("K", 5)
    ∧ apply_updates sheet_c4 (build_updates (status_only "id1") 5 "2026-10-12")
        ("J", 5) = "OK"
    ∧ ("S", 5, "2026-10-12") ∈ build_updates (status_only "id1") 5 "2026-10-12" := by
  have h := c4_update_frame_and_timestamp "id1" 5 "2026-10-12" sheet_c4
  exact ⟨h.2.2.1 "K" 5 (by decide) (by decide), h.1, h.2.2.2.1 (status_only "id1")⟩
